import Mathlib

/-!
A verification development for the `gosns` package: a dead-simple Amazon SNS
HTTP notification endpoint server.  The definitions below are a shallow
embedding of the Go source (`gosns.go` and the example command).  Strings are
modelled over characters (the program only ever slices at ASCII boundaries in
the cases of interest), machine integers as `Int`/`Nat`, the network and the
wall clock as explicit parameters, and Go panics as an explicit outcome
constructor.
-/

namespace Gosns

/-! ### Decimal digits -/

/-- The character for a decimal digit (used by the time formatter). -/
def digitChar (k : Nat) : Char :=
  match k with
  | 0 => '0' | 1 => '1' | 2 => '2' | 3 => '3' | 4 => '4'
  | 5 => '5' | 6 => '6' | 7 => '7' | 8 => '8' | 9 => '9'
  | _ => '*'

/-- Decimal digit value of a character, `none` if it is not a digit. -/
def charDigit? (c : Char) : Option Nat :=
  if '0' ≤ c ∧ c ≤ '9' then some (c.toNat - 48) else none

/-! ### The fixed SNS timestamp pattern

The source declares `amzTimeFormat = "2006-01-02T15:04:05.999999999Z"` and
uses it only through `time.Format` and `time.Parse`.  We embed Go's
`Format`/`Parse` specialised to this one layout.  A Go `time.Time` is observed
by that layout only through its civil decomposition in UTC, so the model of a
time value is that decomposition. -/

/-- The Go layout string from the source, kept for reference. -/
def amzTimeFormat : String := "2006-01-02T15:04:05.999999999Z"

/-- Model of a Go `time.Time` as observed through `amzTimeFormat`:
its civil (Gregorian) decomposition in UTC plus nanoseconds. -/
structure GoTime where
  year : Nat
  month : Nat
  day : Nat
  hour : Nat
  minute : Nat
  second : Nat
  nanos : Nat
deriving DecidableEq, Repr

/-- The zero `time.Time` (January 1, year 1, 00:00:00 UTC). -/
def zeroGoTime : GoTime := ⟨1, 1, 1, 0, 0, 0, 0⟩

/-- Leap-year test, as in Go's `time` package. -/
def isLeap (y : Nat) : Bool :=
  (y % 4 == 0 && y % 100 != 0) || y % 400 == 0

/-- Days in a month (months are 1-based). -/
def daysInMonth (y mo : Nat) : Nat :=
  match mo with
  | 1 => 31 | 2 => if isLeap y then 29 else 28
  | 3 => 31 | 4 => 30 | 5 => 31 | 6 => 30
  | 7 => 31 | 8 => 31 | 9 => 30 | 10 => 31
  | 11 => 30 | 12 => 31
  | _ => 0

/-- A civil time the fixed pattern can represent: 4-digit year, calendar-valid
month/day, in-range clock fields, sub-second nanoseconds. -/
def validAmzTime (t : GoTime) : Prop :=
  t.year ≤ 9999 ∧ 1 ≤ t.month ∧ t.month ≤ 12 ∧
  1 ≤ t.day ∧ t.day ≤ daysInMonth t.year t.month ∧
  t.hour ≤ 23 ∧ t.minute ≤ 59 ∧ t.second ≤ 59 ∧
  t.nanos < 1000000000

instance (t : GoTime) : Decidable (validAmzTime t) := by
  unfold validAmzTime; infer_instance

/-- Two-digit zero-padded decimal (layout verbs `01`, `02`, `15`, `04`, `05`). -/
def pad2 (n : Nat) : List Char := [digitChar (n / 10), digitChar (n % 10)]

/-- Four-digit zero-padded decimal (layout verb `2006`). -/
def pad4 (n : Nat) : List Char :=
  [digitChar (n / 1000), digitChar (n / 100 % 10), digitChar (n / 10 % 10), digitChar (n % 10)]

/-- Nine-digit zero-padded decimal (the full fractional-second field). -/
def pad9 (n : Nat) : List Char :=
  [digitChar (n / 100000000), digitChar (n / 10000000 % 10), digitChar (n / 1000000 % 10),
   digitChar (n / 100000 % 10), digitChar (n / 10000 % 10), digitChar (n / 1000 % 10),
   digitChar (n / 100 % 10), digitChar (n / 10 % 10), digitChar (n % 10)]

/-- Drop leading zeros (used on the reversed digit list to strip trailing
zeros, as the `.999999999` layout verb does). -/
def stripZeros : List Char → List Char
  | [] => []
  | c :: cs => if c = '0' then stripZeros cs else c :: cs

/-- Strip trailing zeros from a digit list. -/
def stripTrailingZeros (l : List Char) : List Char :=
  (stripZeros l.reverse).reverse

/-- The fractional-second field produced by `Format` for the `.999999999`
verb: empty when the nanoseconds are zero, otherwise a dot followed by the
nine-digit field with trailing zeros removed. -/
def fracPart (ns : Nat) : List Char :=
  if ns = 0 then [] else '.' :: stripTrailingZeros (pad9 ns)

/-- Go `t.Format(amzTimeFormat)` (for a UTC time), as a character list. -/
def formatAmzList (t : GoTime) : List Char :=
  pad4 t.year ++ '-' :: (pad2 t.month ++ '-' :: (pad2 t.day ++ 'T' ::
    (pad2 t.hour ++ ':' :: (pad2 t.minute ++ ':' ::
      (pad2 t.second ++ (fracPart t.nanos ++ ['Z']))))))

/-- Go `t.Format(amzTimeFormat)` for a UTC time. -/
def formatAmzTime (t : GoTime) : String := String.mk (formatAmzList t)

/-- Read exactly `k` decimal digits, most significant first, on top of an
accumulator. -/
def parseFixed : Nat → Nat → List Char → Option (Nat × List Char)
  | 0, acc, cs => some (acc, cs)
  | k + 1, acc, c :: cs =>
    match charDigit? c with
    | some d => parseFixed k (acc * 10 + d) cs
    | none => none
  | _ + 1, _, [] => none

/-- Require one specific character next. -/
def expectCh (c : Char) (cs : List Char) : Option (List Char) :=
  match cs with
  | c' :: rest => if c' = c then some rest else none
  | [] => none

/-- Greedily read decimal digits: returns their value (most significant
first), how many there were, and the rest of the input. -/
def parseFracDigits : List Char → Nat × Nat × List Char
  | [] => (0, 0, [])
  | c :: rest =>
    match charDigit? c with
    | some d =>
      let t := parseFracDigits rest
      (d * 10 ^ t.2.1 + t.1, t.2.1 + 1, t.2.2)
    | none => (0, 0, c :: rest)

/-- Parse the optional fractional-second field of the `.999999999` verb:
an optional dot followed by one to nine digits, scaled to nanoseconds. -/
def parseFrac (cs : List Char) : Option (Nat × List Char) :=
  match cs with
  | '.' :: rest =>
    let t := parseFracDigits rest
    if 1 ≤ t.2.1 ∧ t.2.1 ≤ 9 then some (t.1 * 10 ^ (9 - t.2.1), t.2.2) else none
  | _ => some (0, cs)

/-- Go `time.Parse(amzTimeFormat, s)` on a character list: fixed-width
numeric fields separated by the layout's literals, an optional fraction, a
literal `Z`, end of input, and Go's range validation of the fields.  A `Z`
literal carries no zone information, so the result is in UTC, matching the
`GoTime` model.  Failure is `none` (the caller in the source discards the
error and keeps the zero time). -/
def parseAmzList (cs : List Char) : Option GoTime :=
  (parseFixed 4 0 cs).bind (fun p1 =>
  (expectCh '-' p1.2).bind (fun cs2 =>
  (parseFixed 2 0 cs2).bind (fun p2 =>
  (expectCh '-' p2.2).bind (fun cs3 =>
  (parseFixed 2 0 cs3).bind (fun p3 =>
  (expectCh 'T' p3.2).bind (fun cs4 =>
  (parseFixed 2 0 cs4).bind (fun p4 =>
  (expectCh ':' p4.2).bind (fun cs5 =>
  (parseFixed 2 0 cs5).bind (fun p5 =>
  (expectCh ':' p5.2).bind (fun cs6 =>
  (parseFixed 2 0 cs6).bind (fun p6 =>
  (parseFrac p6.2).bind (fun p7 =>
  (expectCh 'Z' p7.2).bind (fun cs8 =>
  if cs8 = [] then
    if 1 ≤ p2.1 ∧ p2.1 ≤ 12 ∧ 1 ≤ p3.1 ∧ p3.1 ≤ daysInMonth p1.1 p2.1 ∧
       p4.1 ≤ 23 ∧ p5.1 ≤ 59 ∧ p6.1 ≤ 59 then
      some ⟨p1.1, p2.1, p3.1, p4.1, p5.1, p6.1, p7.1⟩
    else none
  else none)))))))))))))

/-- Go `time.Parse(amzTimeFormat, s)`. -/
def parseAmzTime (s : String) : Option GoTime := parseAmzList s.data

/-! ### JSON values

The source decodes request bodies with `json.Unmarshal(jsonBytes, &data)`
into a `map[string]interface{}`.  We model the decoded values; a numeric
payload is kept as its literal text, since the program never reads a numeric
field (only its presence and its not being a string matter). -/

/-- A decoded JSON value as `encoding/json` produces for `interface{}`. -/
inductive JValue where
  | null
  | bool (b : Bool)
  | num (lit : String)
  | str (s : String)
  | arr (elems : List JValue)
  | obj (fields : List (String × JValue))

/-- An object's field list with Go-map semantics: a repeated key overwrites
the earlier entry (`encoding/json` stores members into the map in order). -/
def insertJField : List (String × JValue) → String → JValue → List (String × JValue)
  | [], k, v => [(k, v)]
  | (k', v') :: rest, k, v =>
    if k' = k then (k, v) :: rest else (k', v') :: insertJField rest k v

/-- JSON whitespace (space, tab, newline, carriage return). -/
def isJsonWs (c : Char) : Bool :=
  c == ' ' || c == '\t' || c == '\n' || c == '\r'

/-- Skip JSON whitespace. -/
def skipWs (cs : List Char) : List Char := cs.dropWhile isJsonWs

/-- Hexadecimal digit value. -/
def hexDigit? (c : Char) : Option Nat :=
  if '0' ≤ c ∧ c ≤ '9' then some (c.toNat - 48)
  else if 'a' ≤ c ∧ c ≤ 'f' then some (c.toNat - 87)
  else if 'A' ≤ c ∧ c ≤ 'F' then some (c.toNat - 55)
  else none

/-- Read exactly four hexadecimal digits (the `\uXXXX` escape payload). -/
def parseHex4 (cs : List Char) : Option (Nat × List Char) :=
  match cs with
  | a :: b :: c :: d :: rest =>
    match hexDigit? a, hexDigit? b, hexDigit? c, hexDigit? d with
    | some x, some y, some z, some w => some (((x * 16 + y) * 16 + z) * 16 + w, rest)
    | _, _, _, _ => none
  | _ => none

/-- Body of a JSON string literal, after the opening quote.  Escapes follow
`encoding/json`: the simple escapes, and `\uXXXX` with surrogate pairs
combined and unpaired surrogates replaced by U+FFFD.  Unescaped control
characters are invalid. -/
def parseJStringAux : Nat → List Char → List Char → Option (String × List Char)
  | 0, _, _ => none
  | fuel + 1, acc, cs =>
    match cs with
    | [] => none
    | c :: rest =>
      if c == '\"' then some (String.mk acc.reverse, rest)
      else if c == '\\' then
        match rest with
        | [] => none
        | e :: rest2 =>
          if e == '\"' then parseJStringAux fuel ('\"' :: acc) rest2
          else if e == '\\' then parseJStringAux fuel ('\\' :: acc) rest2
          else if e == '/' then parseJStringAux fuel ('/' :: acc) rest2
          else if e == 'b' then parseJStringAux fuel ('\x08' :: acc) rest2
          else if e == 'f' then parseJStringAux fuel ('\x0c' :: acc) rest2
          else if e == 'n' then parseJStringAux fuel ('\n' :: acc) rest2
          else if e == 'r' then parseJStringAux fuel ('\r' :: acc) rest2
          else if e == 't' then parseJStringAux fuel ('\t' :: acc) rest2
          else if e == 'u' then
            match parseHex4 rest2 with
            | none => none
            | some (v, rest3) =>
              if 0xD800 ≤ v ∧ v ≤ 0xDBFF then
                match rest3 with
                | '\\' :: 'u' :: rest4 =>
                  match parseHex4 rest4 with
                  | some (w, rest5) =>
                    if 0xDC00 ≤ w ∧ w ≤ 0xDFFF then
                      parseJStringAux fuel
                        (Char.ofNat (0x10000 + (v - 0xD800) * 0x400 + (w - 0xDC00)) :: acc) rest5
                    else parseJStringAux fuel ('�' :: acc) rest3
                  | none => parseJStringAux fuel ('�' :: acc) rest3
                | _ => parseJStringAux fuel ('�' :: acc) rest3
              else if 0xDC00 ≤ v ∧ v ≤ 0xDFFF then
                parseJStringAux fuel ('�' :: acc) rest3
              else
                parseJStringAux fuel (Char.ofNat v :: acc) rest3
          else none
      else if c.toNat < 0x20 then none
      else parseJStringAux fuel (c :: acc) rest

/-- Parse a JSON string literal starting at its opening quote. -/
def parseJString (cs : List Char) : Option (String × List Char) :=
  match cs with
  | '\"' :: rest => parseJStringAux (rest.length + 1) [] rest
  | _ => none

/-- Greedy run of decimal digits. -/
def spanDigits (cs : List Char) : List Char × List Char :=
  cs.span (fun c => (charDigit? c).isSome)

/-- Parse a JSON number literal, keeping its text: optional minus, an
integer part (`0`, or a nonzero digit followed by digits), an optional
fraction, an optional exponent. -/
def parseJNumber (cs : List Char) : Option (JValue × List Char) :=
  let (sgn, cs1) := match cs with
    | '-' :: r => (['-'], r)
    | _ => (([] : List Char), cs)
  match cs1 with
  | '0' :: r1 =>
    match r1 with
    | c :: _ =>
      if (charDigit? c).isSome then none
      else parseJNumTail (sgn ++ ['0']) r1
    | [] => parseJNumTail (sgn ++ ['0']) r1
  | c :: _ =>
    if (charDigit? c).isSome then
      let (ds, r1) := spanDigits cs1
      parseJNumTail (sgn ++ ds) r1
    else none
  | [] => none
where
  /-- Optional fraction and exponent after the integer part. -/
  parseJNumTail (intPart : List Char) (cs : List Char) : Option (JValue × List Char) :=
    let (fracChars, cs2) := match cs with
      | '.' :: r =>
        let (ds, r2) := spanDigits r
        if ds = [] then (none, cs) else (some ('.' :: ds), r2)
      | _ => (none, cs)
    match fracChars with
    | none =>
      match cs with
      | '.' :: _ => none
      | _ => parseJNumExp intPart cs
    | some f => parseJNumExp (intPart ++ f) cs2
  /-- Optional exponent. -/
  parseJNumExp (lit : List Char) (cs : List Char) : Option (JValue × List Char) :=
    match cs with
    | e :: r =>
      if e == 'e' || e == 'E' then
        let (sgn, r1) := match r with
          | '+' :: r2 => (['+'], r2)
          | '-' :: r2 => (['-'], r2)
          | _ => (([] : List Char), r)
        let (ds, r2) := spanDigits r1
        if ds = [] then none
        else some (JValue.num (String.mk (lit ++ e :: sgn ++ ds)), r2)
      else some (JValue.num (String.mk lit), cs)
    | [] => some (JValue.num (String.mk lit), cs)

mutual
/-- Parse one JSON value.  The fuel bounds the nesting depth; the top-level
entry point supplies more fuel than the input length, which suffices because
every nested value consumes at least one character first. -/
def parseJValue : Nat → List Char → Option (JValue × List Char)
  | 0, _ => none
  | fuel + 1, cs =>
    match cs with
    | [] => none
    | c :: rest =>
      if c == 'n' then
        match rest with
        | 'u' :: 'l' :: 'l' :: r => some (JValue.null, r)
        | _ => none
      else if c == 't' then
        match rest with
        | 'r' :: 'u' :: 'e' :: r => some (JValue.bool true, r)
        | _ => none
      else if c == 'f' then
        match rest with
        | 'a' :: 'l' :: 's' :: 'e' :: r => some (JValue.bool false, r)
        | _ => none
      else if c == '\"' then
        match parseJString cs with
        | some (s, r) => some (JValue.str s, r)
        | none => none
      else if c == '\x7b' then
        match skipWs rest with
        | '\x7d' :: r => some (JValue.obj [], r)
        | cs1 => parseJMembers fuel [] cs1
      else if c == '[' then
        match skipWs rest with
        | ']' :: r => some (JValue.arr [], r)
        | cs1 => parseJElems fuel [] cs1
      else if c == '-' || (charDigit? c).isSome then parseJNumber cs
      else none

/-- Parse the members of a JSON object, positioned at a key. -/
def parseJMembers : Nat → List (String × JValue) → List Char → Option (JValue × List Char)
  | 0, _, _ => none
  | fuel + 1, acc, cs =>
    match parseJString cs with
    | none => none
    | some (k, cs1) =>
      match skipWs cs1 with
      | ':' :: cs2 =>
        match parseJValue fuel (skipWs cs2) with
        | none => none
        | some (v, cs3) =>
          match skipWs cs3 with
          | ',' :: cs4 => parseJMembers fuel (insertJField acc k v) (skipWs cs4)
          | '\x7d' :: cs4 => some (JValue.obj (insertJField acc k v), cs4)
          | _ => none
      | _ => none

/-- Parse the elements of a JSON array, positioned at a value. -/
def parseJElems : Nat → List JValue → List Char → Option (JValue × List Char)
  | 0, _, _ => none
  | fuel + 1, acc, cs =>
    match parseJValue fuel cs with
    | none => none
    | some (v, cs1) =>
      match skipWs cs1 with
      | ',' :: cs2 => parseJElems fuel (acc ++ [v]) (skipWs cs2)
      | ']' :: cs2 => some (JValue.arr (acc ++ [v]), cs2)
      | _ => none
end

/-- Go `json.Unmarshal` of a whole body into `interface{}`: one JSON value
with surrounding whitespace and nothing else. -/
def jsonParse (s : String) : Option JValue :=
  let cs := skipWs s.data
  match parseJValue (cs.length + 1) cs with
  | some (v, rest) => if skipWs rest = [] then some v else none
  | none => none

/-! ### The server data model -/

/-- `topicDescription`: a registered topic (channel id and callback).  The
callback type is a parameter; the embedding records the arguments the server
passes to it instead of running it. -/
structure TopicDescription (α : Type) where
  TopicARN : String
  Callback : α
deriving DecidableEq

/-- `Server`: the routing table from URL path to topic description.  A Go nil
map and an empty map behave identically here ([] covers both).  The `Logger`
field only produces log output and is not modelled. -/
structure Server (α : Type) where
  topics : List (String × TopicDescription α)
deriving DecidableEq

/-- `Message`: the payload handed to a callback. -/
structure Message where
  Subject : String
  Message : String
  MessageId : String
  Timestamp : GoTime
deriving DecidableEq

/-- The request headers the source reads (via `r.Header.Get` on these five
fixed keys); an absent header reads as the empty string, as in Go. -/
structure Headers where
  contentLength : String
  snsMessageType : String
  snsTopicArn : String
  snsRawDelivery : String
  snsMessageId : String
deriving DecidableEq

/-- An inbound HTTP request as the handler observes it. -/
structure Request where
  path : String
  headers : Headers
  body : String
deriving DecidableEq

/-- The network environment: the outcome of `http.Get` on each URL
(`true` = no transport error, `false` = error). -/
structure NetEnv where
  httpGet : String → Bool

/-- `fmt.Sscanf(s, "%d", &nbytes)`: skip leading blanks, then an optionally
signed decimal integer; further input is ignored.  `none` models a scan that
produced no item (so `n != 1 || err != nil` in the source). -/
def parseGoInt (s : String) : Option Int :=
  let cs := s.data.dropWhile (fun c => c == ' ' || c == '\t')
  match cs with
  | '+' :: rest => (parseGoIntDigits rest).map (fun n => (n : Int))
  | '-' :: rest => (parseGoIntDigits rest).map (fun n => -(n : Int))
  | rest => (parseGoIntDigits rest).map (fun n => (n : Int))
where
  /-- At least one decimal digit, read greedily. -/
  parseGoIntDigits (cs : List Char) : Option Nat :=
    match cs with
    | c :: rest =>
      match charDigit? c with
      | some d => some (parseGoIntAcc d rest)
      | none => none
    | [] => none
  /-- Accumulate further digits. -/
  parseGoIntAcc (acc : Nat) : List Char → Nat
    | c :: rest =>
      match charDigit? c with
      | some d => parseGoIntAcc (acc * 10 + d) rest
      | none => acc
    | [] => acc

/-- Result of `extractJsonBody`: a Go panic, the nil map ("no data"), or the
decoded field map. -/
inductive ExtractResult where
  | panicked
  | noData
  | data (fields : List (String × JValue))

/-- `extractJsonBody`: scan `Content-Length`, read exactly that many bytes of
the body (`io.ReadFull` fails when fewer are available; extra bytes stay
unread), then either synthesize the raw-delivery map or decode the bytes as
JSON into a map.  `make([]byte, nbytes)` panics when the scanned length is
negative.  The wall clock (`time.Now().In(time.UTC)`) is the `now`
parameter. -/
def extractJsonBody (now : GoTime) (r : Request) : ExtractResult :=
  match parseGoInt r.headers.contentLength with
  | none => .noData
  | some nbytes =>
    if nbytes < 0 then .panicked
    else if (r.body.length : Int) < nbytes then .noData
    else
      let jsonBytes : String := String.mk (r.body.data.take nbytes.toNat)
      if r.headers.snsRawDelivery = "true" then
        .data [("Subject", JValue.str ""),
               ("Message", JValue.str jsonBytes),
               ("MessageId", JValue.str r.headers.snsMessageId),
               ("Timestamp", JValue.str (formatAmzTime now))]
      else
        match jsonParse jsonBytes with
        | some (JValue.obj m) => .data m
        | _ => .noData

/-- What a confirmation or notification flow did: either it panicked, or it
ran to completion having issued the listed outbound GETs (in order) and
spawned the callback on the listed arguments (`none` = the nil message). -/
inductive FlowResult where
  | panicked
  | done (gets : List String) (calls : List (Option Message))
deriving DecidableEq

/-- `confirmSub`: extract the body; on "no data" return silently.  The
`data["SubscribeURL"].(string)` type assertion panics unless the field is
present and a string.  `http.Get` failure is logged and the flow returns
without the callback; on success the callback is spawned with nil. -/
def confirmSub (env : NetEnv) (now : GoTime) (r : Request) : FlowResult :=
  match extractJsonBody now r with
  | .panicked => .panicked
  | .noData => .done [] []
  | .data m =>
    match m.lookup "SubscribeURL" with
    | some (JValue.str subURL) =>
      if env.httpGet subURL then .done [subURL] [Option.none]
      else .done [subURL] []
    | _ => .panicked

/-- `processMessage`: extract the body; on "no data" return silently.  The
`.(string)` type assertions on `Timestamp`, `Message` and `MessageId` panic
unless each field is present and a string; the timestamp parse error is
discarded (zero time); `Subject` is copied only when non-nil, and its own
assertion panics when it is non-nil and not a string.  The callback is
spawned with the constructed message. -/
def processMessage (now : GoTime) (r : Request) : FlowResult :=
  match extractJsonBody now r with
  | .panicked => .panicked
  | .noData => .done [] []
  | .data m =>
    match m.lookup "Timestamp" with
    | some (JValue.str timeStr) =>
      let tm := (parseAmzTime timeStr).getD zeroGoTime
      match m.lookup "Message" with
      | some (JValue.str msgText) =>
        match m.lookup "MessageId" with
        | some (JValue.str msgId) =>
          match m.lookup "Subject" with
          | none => .done [] [some ⟨"", msgText, msgId, tm⟩]
          | some JValue.null => .done [] [some ⟨"", msgText, msgId, tm⟩]
          | some (JValue.str subj) => .done [] [some ⟨subj, msgText, msgId, tm⟩]
          | some _ => .panicked
        | _ => .panicked
      | _ => .panicked
    | _ => .panicked

/-- An HTTP response: status code and body text (`simpleResponse` writes the
message through `Fprintln`, hence the trailing newline). -/
structure Response where
  code : Nat
  body : String
deriving DecidableEq

/-- `simpleResponse`. -/
def simpleResponse (code : Nat) (msg : String) : Response :=
  ⟨code, msg ++ "\n"⟩

/-- Outcome of one `ServeHTTP` call: a panic escaping the handler (no
response is completed), or a response together with the outbound GETs issued
and the callback invocations spawned while handling the request. -/
inductive ServeOutcome where
  | panicked
  | ok (resp : Response) (gets : List String) (calls : List (Option Message))
deriving DecidableEq

/-- `ServeHTTP`: path lookup (miss = 404 "not found"), verbatim comparison of
the topic ARN header (mismatch = 400 "bad request"), then dispatch on the
message-type header: confirmation and notification flows answer 200 "ok",
anything else 501 "not implemented". -/
def ServeHTTP (env : NetEnv) (now : GoTime) {α : Type} (s : Server α)
    (r : Request) : ServeOutcome :=
  match s.topics.lookup r.path with
  | none => .ok (simpleResponse 404 "not found") [] []
  | some td =>
    if td.TopicARN = r.headers.snsTopicArn then
      match r.headers.snsMessageType with
      | "SubscriptionConfirmation" =>
        match confirmSub env now r with
        | .panicked => .panicked
        | .done g c => .ok (simpleResponse 200 "ok") g c
      | "Notification" =>
        match processMessage now r with
        | .panicked => .panicked
        | .done g c => .ok (simpleResponse 200 "ok") g c
      | _ => .ok (simpleResponse 501 "not implemented") [] []
    else .ok (simpleResponse 400 "bad request") [] []

/-- Insert-or-overwrite into the routing table (Go map assignment). -/
def insertTopic {α : Type} : List (String × TopicDescription α) → String →
    TopicDescription α → List (String × TopicDescription α)
  | [], k, v => [(k, v)]
  | (k', v') :: rest, k, v =>
    if k' = k then (k, v) :: rest else (k', v') :: insertTopic rest k v

/-- Result of `AddTopic`: the slice expression `endpoint[:1]` panics on an
empty endpoint; otherwise the updated server. -/
inductive AddTopicResult (α : Type) where
  | panicked
  | ok (s : Server α)
deriving DecidableEq

/-- `AddTopic`: prefix the endpoint with `/` unless its first byte already is
one (`endpoint[:1]` — which panics when the endpoint is empty), then insert
or overwrite the routing entry; a Go nil map and the insert branch coincide
in the list model. -/
def AddTopic {α : Type} (s : Server α) (topicARN endpoint : String)
    (callback : α) : AddTopicResult α :=
  match endpoint.data with
  | [] => .panicked
  | c :: _ =>
    let ep := if c ≠ '/' then "/" ++ endpoint else endpoint
    .ok ⟨insertTopic s.topics ep ⟨topicARN, callback⟩⟩

/-! ## Lemmas about the timestamp format -/

theorem charDigit?_digitChar (k : Nat) (h : k < 10) :
    charDigit? (digitChar k) = some k := by
  interval_cases k <;> decide

theorem parseFixed_step (k acc : Nat) (c : Char) (cs : List Char) (d : Nat)
    (h : charDigit? c = some d) :
    parseFixed (k + 1) acc (c :: cs) = parseFixed k (acc * 10 + d) cs := by
  simp [parseFixed, h]

theorem parseFixed_pad2 (n : Nat) (h : n < 100) (rest : List Char) :
    parseFixed 2 0 (pad2 n ++ rest) = some (n, rest) := by
  have e : pad2 n ++ rest = digitChar (n / 10) :: digitChar (n % 10) :: rest := rfl
  rw [e, parseFixed_step _ _ _ _ _ (charDigit?_digitChar _ (by omega)),
    parseFixed_step _ _ _ _ _ (charDigit?_digitChar _ (by omega))]
  have : (0 * 10 + n / 10) * 10 + n % 10 = n := by omega
  rw [this]
  rfl

theorem parseFixed_pad4 (n : Nat) (h : n < 10000) (rest : List Char) :
    parseFixed 4 0 (pad4 n ++ rest) = some (n, rest) := by
  have e : pad4 n ++ rest = digitChar (n / 1000) :: digitChar (n / 100 % 10) ::
      digitChar (n / 10 % 10) :: digitChar (n % 10) :: rest := rfl
  rw [e, parseFixed_step _ _ _ _ _ (charDigit?_digitChar _ (by omega)),
    parseFixed_step _ _ _ _ _ (charDigit?_digitChar _ (by omega)),
    parseFixed_step _ _ _ _ _ (charDigit?_digitChar _ (by omega)),
    parseFixed_step _ _ _ _ _ (charDigit?_digitChar _ (by omega))]
  have : (((0 * 10 + n / 1000) * 10 + n / 100 % 10) * 10 + n / 10 % 10) * 10 + n % 10 = n := by
    omega
  rw [this]
  rfl

/-- Value of a digit list read least-significant first. -/
def valR : List Char → Nat
  | [] => 0
  | c :: cs => (charDigit? c).getD 0 + 10 * valR cs

/-- Value of a digit list read most-significant first. -/
def dvMSB : List Char → Nat
  | [] => 0
  | c :: cs => (charDigit? c).getD 0 * 10 ^ cs.length + dvMSB cs

theorem valR_append (xs : List Char) (c : Char) :
    valR (xs ++ [c]) = valR xs + 10 ^ xs.length * (charDigit? c).getD 0 := by
  induction xs with
  | nil => simp [valR]
  | cons a l ih => simp [valR, ih, pow_succ]; ring

theorem dvMSB_eq_valR_reverse (l : List Char) : dvMSB l = valR l.reverse := by
  induction l with
  | nil => rfl
  | cons c cs ih =>
    simp [dvMSB, List.reverse_cons, valR_append, ih]
    ring

theorem stripZeros_length_le (l : List Char) : (stripZeros l).length ≤ l.length := by
  induction l with
  | nil => simp [stripZeros]
  | cons c cs ih =>
    by_cases h : c = '0'
    · simp only [stripZeros, if_pos h]
      exact Nat.le_succ_of_le ih
    · simp [stripZeros, h]

theorem valR_stripZeros (l : List Char) :
    valR (stripZeros l) * 10 ^ (l.length - (stripZeros l).length) = valR l := by
  induction l with
  | nil => simp [stripZeros, valR]
  | cons c cs ih =>
    by_cases h : c = '0'
    · subst h
      have hle := stripZeros_length_le cs
      have e0 : stripZeros ('0' :: cs) = stripZeros cs := by simp [stripZeros]
      rw [e0]
      have e1 : ('0' :: cs).length - (stripZeros cs).length =
          (cs.length - (stripZeros cs).length) + 1 := by
        simp only [List.length_cons]; omega
      rw [e1, pow_succ, ← Nat.mul_assoc, ih]
      have e2 : valR ('0' :: cs) = (charDigit? '0').getD 0 + 10 * valR cs := rfl
      rw [e2]
      have e3 : charDigit? '0' = some 0 := rfl
      rw [e3]
      simp [Nat.mul_comm]
    · have e0 : stripZeros (c :: cs) = c :: cs := by simp [stripZeros, h]
      rw [e0]
      simp

theorem mem_stripZeros {c : Char} {l : List Char} (h : c ∈ stripZeros l) : c ∈ l := by
  induction l with
  | nil => simp [stripZeros] at h
  | cons a cs ih =>
    by_cases ha : a = '0'
    · simp only [stripZeros, if_pos ha] at h
      exact List.mem_cons_of_mem _ (ih h)
    · simpa [stripZeros, ha] using h

theorem pad9_reverse (n : Nat) :
    (pad9 n).reverse = [digitChar (n % 10), digitChar (n / 10 % 10),
      digitChar (n / 100 % 10), digitChar (n / 1000 % 10), digitChar (n / 10000 % 10),
      digitChar (n / 100000 % 10), digitChar (n / 1000000 % 10),
      digitChar (n / 10000000 % 10), digitChar (n / 100000000)] := by
  rfl

theorem valR_pad9_reverse (n : Nat) (h : n < 1000000000) :
    valR (pad9 n).reverse = n := by
  rw [pad9_reverse]
  simp only [valR, charDigit?_digitChar _ (show n % 10 < 10 by omega),
    charDigit?_digitChar _ (show n / 10 % 10 < 10 by omega),
    charDigit?_digitChar _ (show n / 100 % 10 < 10 by omega),
    charDigit?_digitChar _ (show n / 1000 % 10 < 10 by omega),
    charDigit?_digitChar _ (show n / 10000 % 10 < 10 by omega),
    charDigit?_digitChar _ (show n / 100000 % 10 < 10 by omega),
    charDigit?_digitChar _ (show n / 1000000 % 10 < 10 by omega),
    charDigit?_digitChar _ (show n / 10000000 % 10 < 10 by omega),
    charDigit?_digitChar _ (show n / 100000000 < 10 by omega),
    Option.getD_some]
  omega

theorem pad9_digits (n : Nat) (h : n < 1000000000) :
    ∀ c ∈ pad9 n, (charDigit? c).isSome := by
  intro c hc
  have h10 : ∀ k, k < 10 → (charDigit? (digitChar k)).isSome := by
    intro k hk
    rw [charDigit?_digitChar k hk]
    rfl
  simp only [pad9, List.mem_cons, List.not_mem_nil, or_false] at hc
  rcases hc with rfl | rfl | rfl | rfl | rfl | rfl | rfl | rfl | rfl <;>
    exact h10 _ (by omega)

theorem parseFracDigits_append (l : List Char) (z : Char) (rest : List Char)
    (hl : ∀ c ∈ l, (charDigit? c).isSome) (hz : charDigit? z = none) :
    parseFracDigits (l ++ z :: rest) = (dvMSB l, l.length, z :: rest) := by
  induction l with
  | nil => simp [parseFracDigits, hz, dvMSB]
  | cons a l ih =>
    obtain ⟨d, hd⟩ := Option.isSome_iff_exists.mp (hl a (List.mem_cons_self a l))
    have ih' := ih (fun c hc => hl c (List.mem_cons_of_mem a hc))
    simp [parseFracDigits, hd, ih', dvMSB]

theorem expectCh_cons (c : Char) (cs : List Char) : expectCh c (c :: cs) = some cs := by
  simp [expectCh]

theorem parseFrac_fracPart (ns : Nat) (h : ns < 1000000000) (rest : List Char) :
    parseFrac (fracPart ns ++ 'Z' :: rest) = some (ns, 'Z' :: rest) := by
  by_cases h0 : ns = 0
  · subst h0
    show parseFrac ('Z' :: rest) = some (0, 'Z' :: rest)
    rfl
  · have e0 : fracPart ns = '.' :: stripTrailingZeros (pad9 ns) := by
      simp [fracPart, h0]
    rw [e0]
    have hdig : ∀ c ∈ stripTrailingZeros (pad9 ns), (charDigit? c).isSome := by
      intro c hc
      have h1 : c ∈ stripZeros (pad9 ns).reverse := by
        simpa [stripTrailingZeros] using hc
      have h2 : c ∈ (pad9 ns).reverse := mem_stripZeros h1
      exact pad9_digits ns h c (List.mem_reverse.mp h2)
    have hz : charDigit? 'Z' = none := rfl
    have hpf := parseFracDigits_append (stripTrailingZeros (pad9 ns)) 'Z' rest hdig hz
    have hlen9 : (pad9 ns).reverse.length = 9 := rfl
    have hklen : (stripTrailingZeros (pad9 ns)).length =
        (stripZeros (pad9 ns).reverse).length := by
      simp [stripTrailingZeros]
    have hk9 : (stripTrailingZeros (pad9 ns)).length ≤ 9 := by
      rw [hklen]
      have := stripZeros_length_le (pad9 ns).reverse
      omega
    have hvalR : valR (stripZeros (pad9 ns).reverse) *
        10 ^ (9 - (stripZeros (pad9 ns).reverse).length) = ns := by
      have := valR_stripZeros (pad9 ns).reverse
      rw [hlen9] at this
      rw [this]
      exact valR_pad9_reverse ns h
    have hk1 : 1 ≤ (stripTrailingZeros (pad9 ns)).length := by
      rw [hklen]
      rcases Nat.eq_zero_or_pos (stripZeros (pad9 ns).reverse).length with hz0 | hp
      · exfalso
        have : stripZeros (pad9 ns).reverse = [] := List.length_eq_zero.mp hz0
        rw [this] at hvalR
        simp [valR] at hvalR
        exact h0 hvalR.symm
      · omega
    have hval : dvMSB (stripTrailingZeros (pad9 ns)) = valR (stripZeros (pad9 ns).reverse) := by
      rw [dvMSB_eq_valR_reverse]
      simp [stripTrailingZeros]
    show parseFrac ('.' :: (stripTrailingZeros (pad9 ns) ++ 'Z' :: rest)) =
      some (ns, 'Z' :: rest)
    have e1 : parseFrac ('.' :: (stripTrailingZeros (pad9 ns) ++ 'Z' :: rest)) =
        (let t := parseFracDigits (stripTrailingZeros (pad9 ns) ++ 'Z' :: rest)
         if 1 ≤ t.2.1 ∧ t.2.1 ≤ 9 then some (t.1 * 10 ^ (9 - t.2.1), t.2.2) else none) := rfl
    rw [e1, hpf]
    have hcond : 1 ≤ (stripTrailingZeros (pad9 ns)).length ∧
        (stripTrailingZeros (pad9 ns)).length ≤ 9 := ⟨hk1, hk9⟩
    simp only [if_pos hcond]
    rw [hval, hklen]
    rw [hvalR]

theorem daysInMonth_le_31 (y mo : Nat) : daysInMonth y mo ≤ 31 := by
  unfold daysInMonth
  split <;> (try split) <;> omega

set_option maxHeartbeats 1000000 in
/-- C6 helper: the round trip stated over the list representation. -/
theorem parseAmzList_format (t : GoTime) (h : validAmzTime t) :
    parseAmzList (formatAmzList t) = some t := by
  obtain ⟨y, mo, d, hh, mi, ss, ns⟩ := t
  obtain ⟨h1, h2, h3, h4, h5, h6, h7, h8, h9⟩ := h
  dsimp only at h1 h2 h3 h4 h5 h6 h7 h8 h9 ⊢
  simp only [formatAmzList, parseAmzList]
  rw [parseFixed_pad4 _ (by omega)]
  simp only [Option.some_bind]
  rw [expectCh_cons]
  simp only [Option.some_bind]
  rw [parseFixed_pad2 _ (by omega : mo < 100)]
  simp only [Option.some_bind]
  rw [expectCh_cons]
  simp only [Option.some_bind]
  rw [parseFixed_pad2 _ (by have := daysInMonth_le_31 y mo; omega : d < 100)]
  simp only [Option.some_bind]
  rw [expectCh_cons]
  simp only [Option.some_bind]
  rw [parseFixed_pad2 _ (by omega : hh < 100)]
  simp only [Option.some_bind]
  rw [expectCh_cons]
  simp only [Option.some_bind]
  rw [parseFixed_pad2 _ (by omega : mi < 100)]
  simp only [Option.some_bind]
  rw [expectCh_cons]
  simp only [Option.some_bind]
  rw [parseFixed_pad2 _ (by omega : ss < 100)]
  simp only [Option.some_bind]
  rw [parseFrac_fracPart _ h9]
  simp only [Option.some_bind]
  rw [expectCh_cons]
  simp only [Option.some_bind]
  have hc : 1 ≤ mo ∧ mo ≤ 12 ∧ 1 ≤ d ∧ d ≤ daysInMonth y mo ∧ hh ≤ 23 ∧ mi ≤ 59 ∧ ss ≤ 59 :=
    ⟨h2, h3, h4, h5, h6, h7, h8⟩
  simp [hc]

/-! ## Lemmas about the routing table -/

theorem mkData (s : String) : String.mk s.data = s := rfl

theorem lookup_insertTopic_self {α : Type} (l : List (String × TopicDescription α))
    (k : String) (v : TopicDescription α) :
    (insertTopic l k v).lookup k = some v := by
  induction l with
  | nil => simp [insertTopic, List.lookup]
  | cons p rest ih =>
    obtain ⟨k', v'⟩ := p
    by_cases h : k' = k
    · simp [insertTopic, h, List.lookup]
    · have h2 : ¬ (k == k') = true := by
        simp only [beq_iff_eq]
        exact fun he => h he.symm
      simp [insertTopic, h, List.lookup, h2, ih]

/-- The routing key `AddTopic` stores for a non-empty endpoint: the endpoint
itself when it already starts with `/`, otherwise `/` prepended. -/
def normalizePath (path : String) : String :=
  if path.data.head? = some '/' then path else "/" ++ path

/-- The `Subject` a notification callback receives: the string value of the
`Subject` field, or empty when the field is absent or null. -/
def subjectOf (m : List (String × JValue)) : String :=
  match m.lookup "Subject" with
  | some (JValue.str s) => s
  | _ => ""

/-! ## Concrete fixtures used by witnesses and counterexamples -/

/-- An environment whose outbound GETs all succeed. -/
def envOk : NetEnv := ⟨fun _ => true⟩

/-- An environment whose outbound GETs all fail with a network error. -/
def envFail : NetEnv := ⟨fun _ => false⟩

/-- A fixed wall-clock instant. -/
def now0 : GoTime := ⟨2024, 1, 2, 3, 4, 5, 0⟩

/-- A server with one registered topic (callbacks are labelled by numbers). -/
def srv0 : Server Nat := ⟨[("/events", ⟨"arn:test", 0⟩)]⟩

/-! ## The claims -/

/-- C1: the claim says a delivery whose body extraction succeeds but whose
decoded map is missing a required field (or holds a non-string value for it)
is swallowed silently with no callback and no panic, the sender still getting
`200 OK`.  The code instead panics: the unchecked type assertions
`data["SubscribeURL"].(string)`, `data["Timestamp"].(string)` (and the other
required fields) fail on a nil or non-string interface value.  This theorem
evaluates the embedded handler on three such deliveries — a `Notification`
and a `SubscriptionConfirmation` with valid empty-object bodies, and a
`Notification` whose `Timestamp` is a number — and each panics instead of
answering `200 OK`. -/
theorem claim_C1_missing_required_field_panics :
    ServeHTTP envOk now0 srv0
        ⟨"/events", ⟨"2", "Notification", "arn:test", "", ""⟩, "\x7b\x7d"⟩ =
      .panicked ∧
    ServeHTTP envOk now0 srv0
        ⟨"/events", ⟨"2", "SubscriptionConfirmation", "arn:test", "", ""⟩, "\x7b\x7d"⟩ =
      .panicked ∧
    ServeHTTP envOk now0 srv0
        ⟨"/events", ⟨"16", "Notification", "arn:test", "", ""⟩,
          "\x7b\"Timestamp\":10\x7d"⟩ =
      .panicked :=
  ⟨rfl, rfl, rfl⟩

/-- C2 counterexample: a `SubscriptionConfirmation` request with a JSON body
holding a `SubscribeURL` string, served in an environment where the outbound
GET fails with a network error.  Exactly one GET is issued and the response
is `200 OK`/"ok", but the callback invocation list is empty — refuting the
claim's "exactly one callback invocation occurs ... even when the GET fails":
the code returns early on the GET error, before `go td.Callback(nil)`. -/
theorem claim_C2_counterexample_get_failure_no_callback :
    ServeHTTP envFail now0 srv0
        ⟨"/events", ⟨"46", "SubscriptionConfirmation", "arn:test", "", ""⟩,
          "\x7b\"SubscribeURL\":\"http://example.test/confirm\"\x7d"⟩ =
      .ok ⟨200, "ok\n"⟩ ["http://example.test/confirm"] [] ∧
    ([] : List (Option Message)) ≠ [Option.none] :=
  ⟨rfl, by decide⟩

/-- C2 amended: for every `SubscriptionConfirmation` request to a registered
path with matching channel id whose extracted map holds a `SubscribeURL`
string, exactly one outbound GET is issued to that URL, and the response is
`200 OK`/"ok" even when the GET fails with a network error; exactly one
callback invocation with the absent-message signal (nil) occurs when the GET
succeeds, and none occurs when it fails. -/
theorem claim_C2_amended_confirmation_flow (env : NetEnv) (now : GoTime)
    {α : Type} (s : Server α) (r : Request) (td : TopicDescription α)
    (m : List (String × JValue)) (url : String)
    (hfind : s.topics.lookup r.path = some td)
    (harn : td.TopicARN = r.headers.snsTopicArn)
    (hty : r.headers.snsMessageType = "SubscriptionConfirmation")
    (hex : extractJsonBody now r = .data m)
    (hurl : m.lookup "SubscribeURL" = some (JValue.str url)) :
    ServeHTTP env now s r =
      .ok ⟨200, "ok\n"⟩ [url] (if env.httpGet url then [Option.none] else []) := by
  cases hg : env.httpGet url <;>
    simp [ServeHTTP, hfind, harn, hty, confirmSub, hex, hurl, hg, simpleResponse]

/-- C2 amended, witness: the confirmation request of the counterexample,
served in an environment where the GET succeeds: one GET, one nil callback,
`200 OK`. -/
theorem claim_C2_amended_confirmation_flow_witness :
    ServeHTTP envOk now0 srv0
        ⟨"/events", ⟨"46", "SubscriptionConfirmation", "arn:test", "", ""⟩,
          "\x7b\"SubscribeURL\":\"http://example.test/confirm\"\x7d"⟩ =
      .ok ⟨200, "ok\n"⟩ ["http://example.test/confirm"] [Option.none] :=
  claim_C2_amended_confirmation_flow envOk now0 srv0 _ _
    [("SubscribeURL", JValue.str "http://example.test/confirm")]
    "http://example.test/confirm" rfl rfl rfl rfl rfl

/-- C3: a `Notification` request to a registered path with matching channel
id whose extracted map holds string fields `Message`, `MessageId` and
`Timestamp` (and whose `Subject` is absent, null, or a string) yields
`200 OK`/"ok" and exactly one callback invocation whose message carries
exactly those field values, with `Subject` empty when absent or null. -/
theorem claim_C3_notification_delivers_message (env : NetEnv) (now : GoTime)
    {α : Type} (s : Server α) (r : Request) (td : TopicDescription α)
    (m : List (String × JValue)) (msgText msgId ts : String)
    (hfind : s.topics.lookup r.path = some td)
    (harn : td.TopicARN = r.headers.snsTopicArn)
    (hty : r.headers.snsMessageType = "Notification")
    (hex : extractJsonBody now r = .data m)
    (hmsg : m.lookup "Message" = some (JValue.str msgText))
    (hmid : m.lookup "MessageId" = some (JValue.str msgId))
    (hts : m.lookup "Timestamp" = some (JValue.str ts))
    (hsub : m.lookup "Subject" = none ∨ m.lookup "Subject" = some JValue.null ∨
      ∃ sj, m.lookup "Subject" = some (JValue.str sj)) :
    ServeHTTP env now s r = .ok ⟨200, "ok\n"⟩ []
      [some ⟨subjectOf m, msgText, msgId, (parseAmzTime ts).getD zeroGoTime⟩] := by
  rcases hsub with hs | hs | ⟨sj, hs⟩ <;>
    simp [ServeHTTP, hfind, harn, hty, processMessage, hex, hts, hmsg, hmid, hs,
      subjectOf, simpleResponse]

/-- C3 witness: a concrete notification with all four fields present. -/
theorem claim_C3_notification_delivers_message_witness :
    ServeHTTP envOk now0 srv0
        ⟨"/events", ⟨"85", "Notification", "arn:test", "", ""⟩,
          "\x7b\"Subject\":\"s1\",\"Message\":\"hi\",\"MessageId\":\"m1\",\"Timestamp\":\"2024-01-02T03:04:05.5Z\"\x7d"⟩ =
      .ok ⟨200, "ok\n"⟩ []
        [some ⟨"s1", "hi", "m1", ⟨2024, 1, 2, 3, 4, 5, 500000000⟩⟩] :=
  claim_C3_notification_delivers_message envOk now0 srv0 _ _
    [("Subject", JValue.str "s1"), ("Message", JValue.str "hi"),
     ("MessageId", JValue.str "m1"), ("Timestamp", JValue.str "2024-01-02T03:04:05.5Z")]
    "hi" "m1" "2024-01-02T03:04:05.5Z"
    rfl rfl rfl rfl rfl rfl rfl (Or.inr (Or.inr ⟨"s1", rfl⟩))

/-- C4: a `Notification` request to a registered path with matching channel
id whose body extraction fails (the "no data" signal: missing or unparseable
`Content-Length`, body shorter than `Content-Length`, or invalid JSON) is
still answered `200 OK`/"ok", with zero callback invocations and no outbound
GET. -/
theorem claim_C4_extraction_failure_still_ok (env : NetEnv) (now : GoTime)
    {α : Type} (s : Server α) (r : Request) (td : TopicDescription α)
    (hfind : s.topics.lookup r.path = some td)
    (harn : td.TopicARN = r.headers.snsTopicArn)
    (hty : r.headers.snsMessageType = "Notification")
    (hex : extractJsonBody now r = .noData) :
    ServeHTTP env now s r = .ok ⟨200, "ok\n"⟩ [] [] := by
  simp [ServeHTTP, hfind, harn, hty, processMessage, hex, simpleResponse]

/-- C4 witness: a notification whose `Content-Length` header is absent (reads
as the empty string, which `Sscanf` cannot scan). -/
theorem claim_C4_extraction_failure_still_ok_witness :
    ServeHTTP envOk now0 srv0
        ⟨"/events", ⟨"", "Notification", "arn:test", "", ""⟩, "\x7b\x7d"⟩ =
      .ok ⟨200, "ok\n"⟩ [] [] :=
  claim_C4_extraction_failure_still_ok envOk now0 srv0 _ _ rfl rfl rfl rfl

/-- C5: a request with the raw-delivery flag header set to "true" (and a
readable body: `Content-Length` scans to the body length) is not parsed as
JSON; the extracted map is synthesized directly with `Subject` empty,
`Message` the literal body text, `MessageId` the dedicated message-id header,
and `Timestamp` the current wall-clock UTC time in the fixed pattern. -/
theorem claim_C5_raw_mode_synthesis (now : GoTime) (r : Request) (n : Int)
    (hraw : r.headers.snsRawDelivery = "true")
    (hcl : parseGoInt r.headers.contentLength = some n)
    (hlen : (r.body.length : Int) = n) :
    extractJsonBody now r = .data
      [("Subject", JValue.str ""), ("Message", JValue.str r.body),
       ("MessageId", JValue.str r.headers.snsMessageId),
       ("Timestamp", JValue.str (formatAmzTime now))] := by
  have hn0 : ¬ n < 0 := by omega
  have hlt : ¬ (r.body.length : Int) < n := by omega
  have htake : r.body.data.take n.toNat = r.body.data := by
    have hn : n.toNat = r.body.length := by omega
    rw [hn]
    rw [show r.body.length = r.body.data.length from rfl]
    exact List.take_length _
  simp [extractJsonBody, hcl, hn0, hlt, hraw, htake, mkData]

/-- C5 witness: raw delivery of body "hello" with message id "abc". -/
theorem claim_C5_raw_mode_synthesis_witness :
    extractJsonBody now0 ⟨"/events", ⟨"5", "Notification", "arn:test", "true", "abc"⟩, "hello"⟩ =
      .data [("Subject", JValue.str ""), ("Message", JValue.str "hello"),
             ("MessageId", JValue.str "abc"),
             ("Timestamp", JValue.str "2024-01-02T03:04:05Z")] :=
  claim_C5_raw_mode_synthesis now0 _ 5 rfl rfl rfl

/-- C6: encoding a timestamp with the fixed pattern
`2006-01-02T15:04:05.999999999Z` (UTC) and parsing the result with the same
pattern reproduces the original instant, including its fractional seconds, for
every civil time the pattern can represent. -/
theorem claim_C6_timestamp_round_trip (t : GoTime) (h : validAmzTime t) :
    parseAmzTime (formatAmzTime t) = some t :=
  parseAmzList_format t h

/-- C6 witness: a leap-day instant with a fraction whose trailing zeros the
formatter strips. -/
theorem claim_C6_timestamp_round_trip_witness :
    validAmzTime ⟨2024, 2, 29, 23, 59, 58, 123000000⟩ ∧
    parseAmzTime (formatAmzTime ⟨2024, 2, 29, 23, 59, 58, 123000000⟩) =
      some ⟨2024, 2, 29, 23, 59, 58, 123000000⟩ :=
  ⟨by decide, claim_C6_timestamp_round_trip _ (by decide)⟩

/-- C7 counterexample: registering the empty endpoint panics (the slice
expression `endpoint[:1]` is out of range for an empty string), so no routing
entry is stored — refuting the claim's "for every call ... the mapping entry
for that key is inserted ... and no error is raised". -/
theorem claim_C7_counterexample_empty_path_panics :
    AddTopic (⟨[]⟩ : Server Nat) "arn:test" "" 0 = .panicked ∧
    (AddTopicResult.panicked : AddTopicResult Nat) ≠ .ok ⟨[("/", ⟨"arn:test", 0⟩)]⟩ :=
  ⟨rfl, by decide⟩

/-- C7 amended: for every call with a non-empty path, the stored routing key
is the path normalized to start with a leading `/` (unchanged if it already
does), the mapping entry for that key is inserted or overwritten with the
given channel id and callback, and no error is raised for a duplicate path —
the last registration for a given path wins silently (the starting table `s`
is arbitrary, so it may already contain the same key). -/
theorem claim_C7_amended_addtopic_normalizes_and_overwrites {α : Type}
    (s : Server α) (arn path : String) (cb : α) (h : path ≠ "") :
    AddTopic s arn path cb =
      .ok ⟨insertTopic s.topics (normalizePath path) ⟨arn, cb⟩⟩ ∧
    (insertTopic s.topics (normalizePath path) ⟨arn, cb⟩).lookup (normalizePath path) =
      some ⟨arn, cb⟩ := by
  refine ⟨?_, lookup_insertTopic_self _ _ _⟩
  obtain ⟨l⟩ := path
  cases l with
  | nil => exact absurd (by decide) h
  | cons c cs =>
    by_cases hc : c = '/'
    · subst hc
      have hnorm : normalizePath ⟨'/' :: cs⟩ = ⟨'/' :: cs⟩ := by
        simp [normalizePath]
      rw [hnorm]
      simp [AddTopic]
    · have hnorm : normalizePath ⟨c :: cs⟩ = "/" ++ ⟨c :: cs⟩ := by
        simp [normalizePath, hc]
      rw [hnorm]
      simp [AddTopic, hc]

/-- C7 amended, witness: re-registering a path without a leading slash whose
normalized form is already present overwrites it silently; the new channel id
and callback win. -/
theorem claim_C7_amended_addtopic_witness :
    AddTopic (⟨[("/t", ⟨"arn:old", 7⟩)]⟩ : Server Nat) "arn:new" "t" 9 =
      .ok ⟨insertTopic [("/t", ⟨"arn:old", 7⟩)] (normalizePath "t") ⟨"arn:new", 9⟩⟩ ∧
    (insertTopic [("/t", ⟨"arn:old", 7⟩)] (normalizePath "t") ⟨"arn:new", 9⟩).lookup
        (normalizePath "t") = some ⟨"arn:new", 9⟩ :=
  claim_C7_amended_addtopic_normalizes_and_overwrites _ _ _ _ (by decide)

/-- C8: a request whose path has no registered entry is answered `404`
"not found", regardless of its headers or body, with no callback invocation
and no outbound GET. -/
theorem claim_C8_unregistered_path_404 (env : NetEnv) (now : GoTime)
    {α : Type} (s : Server α) (r : Request)
    (h : s.topics.lookup r.path = none) :
    ServeHTTP env now s r = .ok ⟨404, "not found\n"⟩ [] [] := by
  simp [ServeHTTP, h, simpleResponse]

/-- C8 witness: an unregistered path. -/
theorem claim_C8_unregistered_path_404_witness :
    ServeHTTP envOk now0 srv0
        ⟨"/other", ⟨"2", "Notification", "arn:test", "", ""⟩, "\x7b\x7d"⟩ =
      .ok ⟨404, "not found\n"⟩ [] [] :=
  claim_C8_unregistered_path_404 envOk now0 srv0 _ rfl

/-- C9: a request to a registered path whose channel-identity header differs
from the registration's channel id (verbatim string comparison) is answered
`400` "bad request", with no callback invocation and no outbound GET. -/
theorem claim_C9_channel_mismatch_400 (env : NetEnv) (now : GoTime)
    {α : Type} (s : Server α) (r : Request) (td : TopicDescription α)
    (hfind : s.topics.lookup r.path = some td)
    (hne : r.headers.snsTopicArn ≠ td.TopicARN) :
    ServeHTTP env now s r = .ok ⟨400, "bad request\n"⟩ [] [] := by
  have hne' : td.TopicARN ≠ r.headers.snsTopicArn := fun he => hne he.symm
  simp [ServeHTTP, hfind, simpleResponse, hne']

/-- C9 witness: a wrong channel id on a registered path. -/
theorem claim_C9_channel_mismatch_400_witness :
    ServeHTTP envOk now0 srv0
        ⟨"/events", ⟨"2", "Notification", "arn:wrong", "", ""⟩, "\x7b\x7d"⟩ =
      .ok ⟨400, "bad request\n"⟩ [] [] :=
  claim_C9_channel_mismatch_400 envOk now0 srv0 _ _ rfl (by decide)

/-- C10: even in raw-delivery mode, body extraction requires `Content-Length`
to scan as an integer and the body to supply that many bytes; when the header
is missing/unparseable or the body is shorter, extraction returns the
"no data" signal and neither flow invokes a callback (or issues a GET). -/
theorem claim_C10_raw_mode_requires_content_length (env : NetEnv) (now : GoTime)
    (r : Request)
    (hraw : r.headers.snsRawDelivery = "true")
    (hfail : parseGoInt r.headers.contentLength = none ∨
      ∃ n, parseGoInt r.headers.contentLength = some n ∧ (r.body.length : Int) < n) :
    extractJsonBody now r = .noData ∧
    confirmSub env now r = .done [] [] ∧
    processMessage now r = .done [] [] := by
  have hex : extractJsonBody now r = .noData := by
    rcases hfail with h | ⟨n, h1, h2⟩
    · simp [extractJsonBody, h]
    · have hn0 : ¬ n < 0 := by omega
      simp [extractJsonBody, h1, hn0, h2]
  exact ⟨hex, by simp [confirmSub, hex], by simp [processMessage, hex]⟩

/-- C10 witness: a raw-delivery request whose body is shorter than its
`Content-Length`. -/
theorem claim_C10_raw_mode_requires_content_length_witness :
    extractJsonBody now0 ⟨"/events", ⟨"10", "Notification", "arn:test", "true", "abc"⟩, "hello"⟩ =
      .noData ∧
    confirmSub envOk now0 ⟨"/events", ⟨"10", "Notification", "arn:test", "true", "abc"⟩, "hello"⟩ =
      .done [] [] ∧
    processMessage now0 ⟨"/events", ⟨"10", "Notification", "arn:test", "true", "abc"⟩, "hello"⟩ =
      .done [] [] :=
  claim_C10_raw_mode_requires_content_length envOk now0 _ rfl
    (Or.inr ⟨10, rfl, by decide⟩)

end Gosns
